import Mathlib

/-!
Shallow embedding of `examples/unit_commitment/storage_as_extension.py`
(class `StorageAncillaryServicesExtension`), which extends a unit-commitment
optimization model with storage ancillary services: regulation, spinning
reserve and flexible ramping.

Modelling choices:
* numeric quantities are rationals;
* a decision-variable assignment is a `Point`; the base model's own variables
  (`PowerOutputStorage`, `PowerInputStorage`, `InputStorage` and an abstract
  remainder) form a `BasePoint`;
* a constraint is a record of a left-hand-side expression (a function of the
  point), an inequality sense and a right-hand bound;
* Python exceptions (dictionary `KeyError` in `_is_bus_in_zone`) are modelled
  with `Except Unit`; the nested `for` loops of the zone lookups are modelled
  by structural recursions that reproduce their iteration order;
* the base unit-commitment model built by the external EGRET library is kept
  abstract: its zonal requirement constraints, stage-cost expressions and
  overall feasible set are inputs of the `UCModel` record.
-/

namespace EgretStorage

/-- Values of the base model's decision variables that the extension reads:
storage discharge power, storage charge power, the binary charging indicator,
and an abstract remainder covering every other base-model variable. -/
structure BasePoint where
  PowerOutputStorage : String → Nat → ℚ
  PowerInputStorage : String → Nat → ℚ
  InputStorage : String → Nat → ℚ
  other : Nat → ℚ

/-- A full assignment of the extended model's decision variables: the base
variables plus the six storage ancillary-service variable families added by
the extension. -/
structure Point where
  base : BasePoint
  StorageRegulationReserveUp : String → Nat → ℚ
  StorageRegulationReserveDn : String → Nat → ℚ
  StorageRegulationOn : String → Nat → ℚ
  StorageSpinningReserve : String → Nat → ℚ
  StorageFlexUpProvided : String → Nat → ℚ
  StorageFlexDnProvided : String → Nat → ℚ

/-- Inequality sense of a constraint. -/
inductive Sense where
  | le : Sense
  | ge : Sense
  | eq : Sense
deriving DecidableEq

/-- A constraint of the base model: its body only reads base-model variables. -/
structure BaseConstr where
  lhs : BasePoint → ℚ
  sense : Sense
  bound : ℚ

/-- A constraint of the extended model: its body may read every variable. -/
structure ExtConstr where
  lhs : Point → ℚ
  sense : Sense
  bound : ℚ

/-- Satisfaction of an extended-model constraint at a point. -/
def ExtConstr.sat (c : ExtConstr) (pt : Point) : Prop :=
  match c.sense with
  | Sense.le => c.lhs pt ≤ c.bound
  | Sense.ge => c.lhs pt ≥ c.bound
  | Sense.eq => c.lhs pt = c.bound

/-- One entry of `model_data.data['elements']['zone']`: the `buses` key is
optional, matching the `if 'buses' in zone_data` test of the source. -/
structure ZoneData where
  buses : Option (List String)

/-- The part of `model_data` the extension reads: the `zone` element
collection, a dictionary from zone name to zone data. -/
structure ModelData where
  zone : List (String × ZoneData)

/-- The unit-commitment model object produced by EGRET's
`create_tight_unit_commitment_model`, restricted to the fields the extension
reads.  Requirement-constraint collections and stage costs are abstract
inputs; `baseFeasible` stands for every base-model constraint. -/
structure UCModel where
  Storage : List String
  TimePeriods : List Nat
  Buses : List String
  RegulationZones : List String
  SpinningReserveZones : List String
  FlexRampZones : List String
  StorageAtBus : String → List String
  MaximumPowerOutputStorage : String → ℚ
  NominalRampUpLimitStorageOutput : String → ℚ
  NominalRampDownLimitStorageOutput : String → ℚ
  ScaledNominalRampUpLimitStorageOutput : String → ℚ
  RegulationMinutes : ℚ
  FlexRampMinutes : ℚ
  TimePeriodLengthHours : ℚ
  RegulationOfferMarginalCost : ℚ
  SpinningReservePrice : ℚ
  StageSet : List String
  GenerationTimeInStage : String → List Nat
  GenerationStageCost : String → BasePoint → ℚ
  EnforceZonalRegulationUpRequirement : List ((String × Nat) × BaseConstr)
  EnforceZonalSpinningReserveRequirement : List ((String × Nat) × BaseConstr)
  ZonalFlexUpRequirementConstr : List ((String × Nat) × BaseConstr)
  baseFeasible : BasePoint → Prop

/-- `_get_storage_reg_up_capability`: `min(MaximumPowerOutputStorage[s],
NominalRampUpLimitStorageOutput[s]/60 * RegulationMinutes)`. -/
def _get_storage_reg_up_capability (m : UCModel) (s : String) (_t : Nat) : ℚ :=
  min (m.MaximumPowerOutputStorage s)
    (m.NominalRampUpLimitStorageOutput s / 60 * m.RegulationMinutes)

/-- `_get_storage_reg_dn_capability`: symmetric with the ramp-down limit. -/
def _get_storage_reg_dn_capability (m : UCModel) (s : String) (_t : Nat) : ℚ :=
  min (m.MaximumPowerOutputStorage s)
    (m.NominalRampDownLimitStorageOutput s / 60 * m.RegulationMinutes)

/-- The `StorageRegulationUpCapability` parameter, initialized from
`_get_storage_reg_up_capability`. -/
def StorageRegulationUpCapability (m : UCModel) (s : String) (t : Nat) : ℚ :=
  _get_storage_reg_up_capability m s t

/-- The `StorageRegulationDnCapability` parameter, initialized from
`_get_storage_reg_dn_capability`. -/
def StorageRegulationDnCapability (m : UCModel) (s : String) (t : Nat) : ℚ :=
  _get_storage_reg_dn_capability m s t

/-- `storage_reg_up_limit_rule`: reserve bounded by capability times the
binary eligibility variable. -/
def storage_reg_up_limit_rule (m : UCModel) (s : String) (t : Nat) (pt : Point) : Prop :=
  pt.StorageRegulationReserveUp s t ≤
    StorageRegulationUpCapability m s t * pt.StorageRegulationOn s t

/-- `storage_reg_dn_limit_rule`: the regulation-down analogue. -/
def storage_reg_dn_limit_rule (m : UCModel) (s : String) (t : Nat) (pt : Point) : Prop :=
  pt.StorageRegulationReserveDn s t ≤
    StorageRegulationDnCapability m s t * pt.StorageRegulationOn s t

/-- `storage_spin_limit_rule`: spinning reserve bounded by
`min(discharge headroom, ramp capacity) * (1 - InputStorage[s,t])`. -/
def storage_spin_limit_rule (m : UCModel) (s : String) (t : Nat) (pt : Point) : Prop :=
  pt.StorageSpinningReserve s t ≤
    min (m.MaximumPowerOutputStorage s - pt.base.PowerOutputStorage s t)
      (m.ScaledNominalRampUpLimitStorageOutput s) * (1 - pt.base.InputStorage s t)

/-- `m.TimePeriods.last()`: the last element of the ordered time-period set
(the set is nonempty in every built model). -/
def timePeriodsLast (m : UCModel) : Nat :=
  m.TimePeriods.getLastD 0

/-- `storage_flex_up_limit_rule`: zero at the terminal period, otherwise
bounded by `min(headroom + charge_reduction, FlexRampMinutes *
NominalRampUpLimitStorageOutput[s]/60)`, where `headroom` is
`MaximumPowerOutputStorage[s] - PowerOutputStorage[s,t]` and
`charge_reduction` is `PowerInputStorage[s,t]`. -/
def storage_flex_up_limit_rule (m : UCModel) (s : String) (t : Nat) (pt : Point) : Prop :=
  if t = timePeriodsLast m then
    pt.StorageFlexUpProvided s t = 0
  else
    pt.StorageFlexUpProvided s t ≤
      min (m.MaximumPowerOutputStorage s - pt.base.PowerOutputStorage s t
            + pt.base.PowerInputStorage s t)
        (m.FlexRampMinutes * (m.NominalRampUpLimitStorageOutput s / 60))

/-- `_is_bus_in_zone`: look the zone up in the `zone` element collection
(a missing zone name raises a `KeyError`, modelled by `Except.error ()`),
then test membership of the bus in the zone's optional `buses` list. -/
def isBusInZone (md : ModelData) (bus zone : String) : Except Unit Bool :=
  match md.zone.lookup zone with
  | none => Except.error ()
  | some zd =>
    match zd.buses with
    | none => Except.ok false
    | some bl => Except.ok (decide (bus ∈ bl))

/-- Successful positive zone-membership test: `_is_bus_in_zone` returned
`True` (as opposed to returning `False` or raising). -/
def isBusInZoneTrue (md : ModelData) (bus zone : String) : Bool :=
  match isBusInZone md bus zone with
  | Except.ok true => true
  | _ => false

/-- Inner loop of `_get_storage_in_zone` for a fixed storage unit `s`: scan
the buses in order; for each bus holding `s`, test `_is_bus_in_zone` and
collect one occurrence of `s` per positive test, propagating a raised
`KeyError`. -/
def scanBuses (md : ModelData) (m : UCModel) (zone s : String) :
    List String → Except Unit (List String)
  | [] => Except.ok []
  | b :: bs =>
    if s ∈ m.StorageAtBus b then
      match isBusInZone md b zone with
      | Except.error e => Except.error e
      | Except.ok true =>
        match scanBuses md m zone s bs with
        | Except.error e => Except.error e
        | Except.ok r => Except.ok (s :: r)
      | Except.ok false => scanBuses md m zone s bs
    else scanBuses md m zone s bs

/-- Outer loop of `_get_storage_in_zone`: concatenate the per-unit scans in
storage order. -/
def scanStorage (md : ModelData) (m : UCModel) (zone : String) :
    List String → Except Unit (List String)
  | [] => Except.ok []
  | s :: ss =>
    match scanBuses md m zone s m.Buses with
    | Except.error e => Except.error e
    | Except.ok l =>
      match scanStorage md m zone ss with
      | Except.error e => Except.error e
      | Except.ok r => Except.ok (l ++ r)

/-- `_get_storage_in_zone(zone, zone_set)`: the generic lookup.  The
`zone_set` argument is accepted and never read, exactly as in the source;
the built dictionary only ever receives entries under the key `zone`, so the
returned value is the accumulated list. -/
def _get_storage_in_zone (md : ModelData) (m : UCModel) (zone : String)
    (_zone_set : List String) : Except Unit (List String) :=
  scanStorage md m zone m.Storage

/-- `_get_storage_in_spin_zone`: delegates to the generic lookup with the
spinning-reserve zone set. -/
def _get_storage_in_spin_zone (md : ModelData) (m : UCModel) (zone : String) :
    Except Unit (List String) :=
  _get_storage_in_zone md m zone m.SpinningReserveZones

/-- `_get_storage_in_flex_zone`: delegates to the generic lookup with the
flex-ramp zone set. -/
def _get_storage_in_flex_zone (md : ModelData) (m : UCModel) (zone : String) :
    Except Unit (List String) :=
  _get_storage_in_zone md m zone m.FlexRampZones

/-- Innermost loop of `_get_storage_in_reg_zone` for a fixed storage unit `s`
at bus `b`: scan all regulation zones `z`, append `s` under key `z` on a
positive membership test; only appends under the queried key `zone` reach the
returned list. -/
def regScanZones (md : ModelData) (zone b s : String) :
    List String → Except Unit (List String)
  | [] => Except.ok []
  | z :: zs =>
    match isBusInZone md b z with
    | Except.error e => Except.error e
    | Except.ok true =>
      match regScanZones md zone b s zs with
      | Except.error e => Except.error e
      | Except.ok r => Except.ok (if z = zone then s :: r else r)
    | Except.ok false => regScanZones md zone b s zs

/-- Middle loop of `_get_storage_in_reg_zone`: scan the buses holding `s`. -/
def regScanBuses (md : ModelData) (m : UCModel) (zone s : String) :
    List String → Except Unit (List String)
  | [] => Except.ok []
  | b :: bs =>
    if s ∈ m.StorageAtBus b then
      match regScanZones md zone b s m.RegulationZones with
      | Except.error e => Except.error e
      | Except.ok l =>
        match regScanBuses md m zone s bs with
        | Except.error e => Except.error e
        | Except.ok r => Except.ok (l ++ r)
    else regScanBuses md m zone s bs

/-- Outer loop of `_get_storage_in_reg_zone`: scan the storage units. -/
def regScanStorage (md : ModelData) (m : UCModel) (zone : String) :
    List String → Except Unit (List String)
  | [] => Except.ok []
  | s :: ss =>
    match regScanBuses md m zone s m.Buses with
    | Except.error e => Except.error e
    | Except.ok l =>
      match regScanStorage md m zone ss with
      | Except.error e => Except.error e
      | Except.ok r => Except.ok (l ++ r)

/-- `_get_storage_in_reg_zone`: the regulation-zone lookup (it iterates over
`RegulationZones` itself rather than delegating to the generic lookup). -/
def _get_storage_in_reg_zone (md : ModelData) (m : UCModel) (zone : String) :
    Except Unit (List String) :=
  regScanStorage md m zone m.Storage

/-- The specification's notion of a storage unit contributing to a zone: `s`
is located at some bus of the model that belongs to the zone. -/
def storageLocatedInZone (md : ModelData) (m : UCModel) (zone s : String) : Bool :=
  m.Buses.any (fun b => decide (s ∈ m.StorageAtBus b) && isBusInZoneTrue md b zone)

/-- Loop body shared by the three constraint-splicing loops: given the
contributing-unit lookup and the reserve variable of the service, rebuild one
zonal requirement constraint `expr.expr + storage_contribution >= expr.upper`,
keyed by `(zone, period)`. -/
def splicedConstr (lookup : String → Except Unit (List String))
    (var : Point → String → Nat → ℚ) (idx : String × Nat) (c : BaseConstr) :
    Except Unit ExtConstr :=
  match lookup idx.1 with
  | Except.error e => Except.error e
  | Except.ok l =>
    Except.ok
      ⟨fun pt => c.lhs pt.base + (l.map (fun s => var pt s idx.2)).sum,
        Sense.ge, c.bound⟩

/-- A constraint-splicing loop over one requirement-constraint collection,
in iteration order. -/
def spliceConstrs (lookup : String → Except Unit (List String))
    (var : Point → String → Nat → ℚ) :
    List ((String × Nat) × BaseConstr) →
      Except Unit (List ((String × Nat) × ExtConstr))
  | [] => Except.ok []
  | p :: rest =>
    match splicedConstr lookup var p.1 p.2 with
    | Except.error e => Except.error e
    | Except.ok c =>
      match spliceConstrs lookup var rest with
      | Except.error e => Except.error e
      | Except.ok rest' => Except.ok ((p.1, c) :: rest')

/-- Step 5 of `_add_storage_regulation_services`: splice the storage
regulation-up reserves into `EnforceZonalRegulationUpRequirement`. -/
def spliceRegUp (md : ModelData) (m : UCModel) :
    Except Unit (List ((String × Nat) × ExtConstr)) :=
  spliceConstrs (_get_storage_in_reg_zone md m)
    (fun pt s t => pt.StorageRegulationReserveUp s t)
    m.EnforceZonalRegulationUpRequirement

/-- Step 3 of `_add_storage_spinning_reserve`: splice the storage spinning
reserves into `EnforceZonalSpinningReserveRequirement`. -/
def spliceSpin (md : ModelData) (m : UCModel) :
    Except Unit (List ((String × Nat) × ExtConstr)) :=
  spliceConstrs (_get_storage_in_spin_zone md m)
    (fun pt s t => pt.StorageSpinningReserve s t)
    m.EnforceZonalSpinningReserveRequirement

/-- Step 3 of `_add_storage_flexible_ramping`: splice the storage flex-up
provisions into `ZonalFlexUpRequirementConstr`. -/
def spliceFlexUp (md : ModelData) (m : UCModel) :
    Except Unit (List ((String × Nat) × ExtConstr)) :=
  spliceConstrs (_get_storage_in_flex_zone md m)
    (fun pt s t => pt.StorageFlexUpProvided s t)
    m.ZonalFlexUpRequirementConstr

/-- The extended model: the underlying model plus the three spliced zonal
requirement-constraint collections.  The added parameters, per-unit limit
rules and modified stage costs are deterministic functions of `UCModel` and
are represented by the standalone definitions above and below. -/
structure ExtendedModel where
  m : UCModel
  regUpConstrs : List ((String × Nat) × ExtConstr)
  spinConstrs : List ((String × Nat) × ExtConstr)
  flexUpConstrs : List ((String × Nat) × ExtConstr)

/-- `create_and_extend_model` past the base-model build:
`_add_storage_ancillary_services` applies the regulation, spinning and
flex-ramp extensions in order (the objective modification is the
deterministic `newGenerationStageCost` below). -/
def extend (md : ModelData) (m : UCModel) : Except Unit ExtendedModel :=
  match spliceRegUp md m with
  | Except.error e => Except.error e
  | Except.ok r =>
    match spliceSpin md m with
    | Except.error e => Except.error e
    | Except.ok sp =>
      match spliceFlexUp md m with
      | Except.error e => Except.error e
      | Except.ok f => Except.ok ⟨m, r, sp, f⟩

/-- `storage_reg_cost_rule`: regulation offer price times period length times
the total regulation reserve. -/
def storage_reg_cost_rule (m : UCModel) (s : String) (t : Nat) (pt : Point) : ℚ :=
  m.RegulationOfferMarginalCost * m.TimePeriodLengthHours *
    (pt.StorageRegulationReserveUp s t + pt.StorageRegulationReserveDn s t)

/-- `storage_spin_cost_rule`: spinning price times period length times the
spinning reserve. -/
def storage_spin_cost_rule (m : UCModel) (s : String) (t : Nat) (pt : Point) : ℚ :=
  m.SpinningReservePrice * m.TimePeriodLengthHours * pt.StorageSpinningReserve s t

/-- `_modify_objective_function`: the stage cost after extension is the old
stage cost plus the sum, over the stage's periods and then over the storage
units, of the two storage cost expressions. -/
def newGenerationStageCost (m : UCModel) (st : String) (pt : Point) : ℚ :=
  m.GenerationStageCost st pt.base +
    ((m.GenerationTimeInStage st).map (fun t =>
      (m.Storage.map (fun s =>
        storage_reg_cost_rule m s t pt + storage_spin_cost_rule m s t pt)).sum)).sum

/-- Membership in Pyomo's `Binary` domain. -/
def isBinary (q : ℚ) : Prop := q = 0 ∨ q = 1

/-- Feasibility for the extended model: the base model's own constraints,
the declared variable domains (`NonNegativeReals` for the five reserve
families, `Binary` for the eligibility flag), the four per-unit limit-rule
constraint collections, and the three spliced zonal requirement
collections. -/
def feasible (em : ExtendedModel) (pt : Point) : Prop :=
  em.m.baseFeasible pt.base ∧
  (∀ s ∈ em.m.Storage, ∀ t ∈ em.m.TimePeriods,
    0 ≤ pt.StorageRegulationReserveUp s t ∧
    0 ≤ pt.StorageRegulationReserveDn s t ∧
    isBinary (pt.StorageRegulationOn s t) ∧
    0 ≤ pt.StorageSpinningReserve s t ∧
    0 ≤ pt.StorageFlexUpProvided s t ∧
    0 ≤ pt.StorageFlexDnProvided s t) ∧
  (∀ s ∈ em.m.Storage, ∀ t ∈ em.m.TimePeriods,
    storage_reg_up_limit_rule em.m s t pt ∧
    storage_reg_dn_limit_rule em.m s t pt ∧
    storage_spin_limit_rule em.m s t pt ∧
    storage_flex_up_limit_rule em.m s t pt) ∧
  (∀ p ∈ em.regUpConstrs, ExtConstr.sat p.2 pt) ∧
  (∀ p ∈ em.spinConstrs, ExtConstr.sat p.2 pt) ∧
  (∀ p ∈ em.flexUpConstrs, ExtConstr.sat p.2 pt)

/-- Replace the flex-down provision component of a point, keeping every other
variable value. -/
def Point.setFlexDn (pt : Point) (f : String → Nat → ℚ) : Point :=
  { pt with StorageFlexDnProvided := f }

/-- Number of model buses holding storage unit `s`.  Every built model data
set assigns a storage unit to exactly one bus, so the splicing theorems take
`busCount m s ≤ 1` as a hypothesis. -/
def busCount (m : UCModel) (s : String) : Nat :=
  (m.Buses.filter (fun b => decide (s ∈ m.StorageAtBus b))).length

instance (q : ℚ) : Decidable (isBinary q) :=
  inferInstanceAs (Decidable (q = 0 ∨ q = 1))

instance (m : UCModel) (s : String) (t : Nat) (pt : Point) :
    Decidable (storage_reg_up_limit_rule m s t pt) :=
  inferInstanceAs (Decidable (pt.StorageRegulationReserveUp s t ≤
    StorageRegulationUpCapability m s t * pt.StorageRegulationOn s t))

instance (m : UCModel) (s : String) (t : Nat) (pt : Point) :
    Decidable (storage_reg_dn_limit_rule m s t pt) :=
  inferInstanceAs (Decidable (pt.StorageRegulationReserveDn s t ≤
    StorageRegulationDnCapability m s t * pt.StorageRegulationOn s t))

instance (m : UCModel) (s : String) (t : Nat) (pt : Point) :
    Decidable (storage_spin_limit_rule m s t pt) :=
  inferInstanceAs (Decidable (pt.StorageSpinningReserve s t ≤
    min (m.MaximumPowerOutputStorage s - pt.base.PowerOutputStorage s t)
      (m.ScaledNominalRampUpLimitStorageOutput s) * (1 - pt.base.InputStorage s t)))

instance (m : UCModel) (s : String) (t : Nat) (pt : Point) :
    Decidable (storage_flex_up_limit_rule m s t pt) :=
  inferInstanceAs (Decidable (if t = timePeriodsLast m then
    pt.StorageFlexUpProvided s t = 0
  else
    pt.StorageFlexUpProvided s t ≤
      min (m.MaximumPowerOutputStorage s - pt.base.PowerOutputStorage s t
            + pt.base.PowerInputStorage s t)
        (m.FlexRampMinutes * (m.NominalRampUpLimitStorageOutput s / 60))))

instance (c : ExtConstr) (pt : Point) : Decidable (ExtConstr.sat c pt) := by
  unfold ExtConstr.sat
  cases c.sense
  all_goals exact inferInstance

/-- The specification's reading of one spliced zonal requirement constraint:
same index, the (≥) sense of the original preserved, the right-hand bound
preserved, and the left-hand side equal to the original aggregate plus the
sum of the service's reserve variable over every storage unit located at a
bus belonging to the zone. -/
def spliceSpec (md : ModelData) (m : UCModel) (var : Point → String → Nat → ℚ)
    (p : (String × Nat) × BaseConstr) (q : (String × Nat) × ExtConstr) : Prop :=
  q.1 = p.1 ∧
  (p.2.sense = Sense.ge → q.2.sense = p.2.sense) ∧
  q.2.bound = p.2.bound ∧
  ∀ pt, q.2.lhs pt = p.2.lhs pt.base +
    ((m.Storage.filter (fun s => storageLocatedInZone md m p.1.1 s)).map
      (fun s => var pt s p.1.2)).sum

/-- Concrete model data used by the witnesses: one zone `z1` whose bus list
is `[b1]`. -/
def wMD : ModelData := ⟨[("z1", ⟨some ["b1"]⟩)]⟩

/-- Concrete model used by the witnesses: one storage unit `s1` at the single
bus `b1`, two time periods, one requirement constraint per service. -/
def wM : UCModel where
  Storage := ["s1"]
  TimePeriods := [1, 2]
  Buses := ["b1"]
  RegulationZones := ["z1"]
  SpinningReserveZones := ["z1"]
  FlexRampZones := ["z1"]
  StorageAtBus := fun b => if b = "b1" then ["s1"] else []
  MaximumPowerOutputStorage := fun _ => 10
  NominalRampUpLimitStorageOutput := fun _ => 10
  NominalRampDownLimitStorageOutput := fun _ => 10
  ScaledNominalRampUpLimitStorageOutput := fun _ => 10
  RegulationMinutes := 5
  FlexRampMinutes := 20
  TimePeriodLengthHours := 1
  RegulationOfferMarginalCost := 2
  SpinningReservePrice := 3
  StageSet := ["Stage_1"]
  GenerationTimeInStage := fun _ => [1, 2]
  GenerationStageCost := fun _ bp => bp.other 0
  EnforceZonalRegulationUpRequirement := [(("z1", 1), ⟨fun bp => bp.other 1, Sense.ge, 5⟩)]
  EnforceZonalSpinningReserveRequirement := [(("z1", 1), ⟨fun bp => bp.other 2, Sense.ge, 6⟩)]
  ZonalFlexUpRequirementConstr := [(("z1", 1), ⟨fun bp => bp.other 3, Sense.ge, 7⟩)]
  baseFeasible := fun _ => True

/-- The extension applied to the witness model; written as a fallback match
so that `extend wMD wM = Except.ok wEM` holds definitionally. -/
def wEM : ExtendedModel :=
  match extend wMD wM with
  | Except.ok em => em
  | Except.error _ => ⟨wM, [], [], []⟩

/-- Witness base point: zero storage power flows, abstract base variables
equal to 10 (satisfying every witness requirement bound). -/
def wBase : BasePoint :=
  ⟨fun _ _ => 0, fun _ _ => 0, fun _ _ => 0, fun _ => 10⟩

/-- Witness point: every extension variable zero. -/
def wPt : Point :=
  ⟨wBase, fun _ _ => 0, fun _ _ => 0, fun _ _ => 0, fun _ _ => 0, fun _ _ => 0,
    fun _ _ => 0⟩

/-- A feasible point whose flex-down provision (1000) exceeds every
capability the extension computes for the witness model. -/
def wPtBig : Point := { wPt with StorageFlexDnProvided := fun _ _ => 1000 }

/-- A feasible point with nonzero flex-down provision at the terminal
period. -/
def wPt3 : Point := { wPt with StorageFlexDnProvided := fun _ _ => 5 }

/-- Model data with an empty zone collection: every zone name is missing, so
`_is_bus_in_zone` raises a `KeyError` for any zone it is asked about. -/
def wMDempty : ModelData := ⟨[]⟩

theorem scanBuses_ok (md : ModelData) (m : UCModel) (zone s : String) :
    ∀ bs r, scanBuses md m zone s bs = Except.ok r →
      r = (bs.filter
            (fun b => decide (s ∈ m.StorageAtBus b) && isBusInZoneTrue md b zone)).map
          (fun _ => s) := by
  intro bs
  induction bs with
  | nil =>
    intro r h
    simp only [scanBuses, Except.ok.injEq] at h
    simp [← h]
  | cons b bs ih =>
    intro r h
    simp only [scanBuses] at h
    by_cases hmem : s ∈ m.StorageAtBus b
    · rw [if_pos hmem] at h
      cases hz : isBusInZone md b zone with
      | error e => rw [hz] at h; cases h
      | ok bb =>
        rw [hz] at h
        cases bb with
        | true =>
          cases hrec : scanBuses md m zone s bs with
          | error e => rw [hrec] at h; cases h
          | ok r' =>
            rw [hrec] at h
            simp only [Except.ok.injEq] at h
            subst h
            rw [ih r' hrec]
            simp [List.filter_cons, hmem, isBusInZoneTrue, hz]
        | false =>
          rw [ih r h]
          simp [List.filter_cons, hmem, isBusInZoneTrue, hz]
    · rw [if_neg hmem] at h
      rw [ih r h]
      simp [List.filter_cons, hmem]

theorem located_filter_buses (md : ModelData) (m : UCModel) (zone s : String)
    (hb : busCount m s ≤ 1) :
    ((m.Buses.filter
        (fun b => decide (s ∈ m.StorageAtBus b) && isBusInZoneTrue md b zone)).map
      (fun _ => s)) =
      if storageLocatedInZone md m zone s then [s] else [] := by
  have hsub : (m.Buses.filter
      (fun b => decide (s ∈ m.StorageAtBus b) && isBusInZoneTrue md b zone)).length ≤
      busCount m s := by
    have h1 : m.Buses.filter
        (fun b => decide (s ∈ m.StorageAtBus b) && isBusInZoneTrue md b zone) =
        List.filter (fun b => decide (s ∈ m.StorageAtBus b))
          (List.filter (fun b => isBusInZoneTrue md b zone) m.Buses) := by
      rw [List.filter_filter]
    rw [busCount, h1]
    exact List.Sublist.length_le
      (List.Sublist.filter _ (List.filter_sublist m.Buses))
  by_cases hloc : storageLocatedInZone md m zone s
  · rw [if_pos hloc]
    rw [storageLocatedInZone, List.any_eq_true] at hloc
    obtain ⟨b, hbmem, hp⟩ := hloc
    have hne : m.Buses.filter
        (fun b => decide (s ∈ m.StorageAtBus b) && isBusInZoneTrue md b zone) ≠ [] := by
      intro hnil
      rw [List.filter_eq_nil_iff] at hnil
      exact hnil b hbmem hp
    have hlen1 : (m.Buses.filter
        (fun b => decide (s ∈ m.StorageAtBus b) && isBusInZoneTrue md b zone)).length = 1 := by
      have hge : 1 ≤ (m.Buses.filter
          (fun b => decide (s ∈ m.StorageAtBus b) && isBusInZoneTrue md b zone)).length := by
        cases hfl : m.Buses.filter
            (fun b => decide (s ∈ m.StorageAtBus b) && isBusInZoneTrue md b zone) with
        | nil => exact absurd hfl hne
        | cons x xs => simp
      omega
    obtain ⟨b0, hb0⟩ := List.length_eq_one.mp hlen1
    rw [hb0]
    rfl
  · rw [if_neg hloc]
    have hnil : m.Buses.filter
        (fun b => decide (s ∈ m.StorageAtBus b) && isBusInZoneTrue md b zone) = [] := by
      rw [List.filter_eq_nil_iff]
      intro b hbmem hp
      apply hloc
      rw [storageLocatedInZone, List.any_eq_true]
      exact ⟨b, hbmem, hp⟩
    rw [hnil]
    rfl

theorem scanStorage_ok (md : ModelData) (m : UCModel) (zone : String)
    (hb : ∀ s, busCount m s ≤ 1) :
    ∀ ss r, scanStorage md m zone ss = Except.ok r →
      r = ss.filter (fun s => storageLocatedInZone md m zone s) := by
  intro ss
  induction ss with
  | nil =>
    intro r h
    simp only [scanStorage, Except.ok.injEq] at h
    simp [← h]
  | cons s ss ih =>
    intro r h
    simp only [scanStorage] at h
    cases h1 : scanBuses md m zone s m.Buses with
    | error e => rw [h1] at h; cases h
    | ok l =>
      rw [h1] at h
      cases h2 : scanStorage md m zone ss with
      | error e => rw [h2] at h; cases h
      | ok r' =>
        rw [h2] at h
        simp only [Except.ok.injEq] at h
        subst h
        have hl : l = if storageLocatedInZone md m zone s then [s] else [] := by
          rw [scanBuses_ok md m zone s m.Buses l h1]
          exact located_filter_buses md m zone s (hb s)
        rw [ih r' h2, hl, List.filter_cons]
        by_cases hloc : storageLocatedInZone md m zone s
        · simp [hloc]
        · simp [hloc]

theorem regScanZones_not_mem (md : ModelData) (zone b s : String) :
    ∀ zs r, zone ∉ zs → regScanZones md zone b s zs = Except.ok r → r = [] := by
  intro zs
  induction zs with
  | nil =>
    intro r _ h
    simp only [regScanZones, Except.ok.injEq] at h
    exact h.symm
  | cons z zs ih =>
    intro r hzm h
    have hne : z ≠ zone := by
      intro hzz
      exact hzm (by rw [hzz]; exact List.mem_cons_self zone zs)
    have hzm' : zone ∉ zs := fun hx => hzm (List.mem_cons_of_mem z hx)
    simp only [regScanZones] at h
    cases hz : isBusInZone md b z with
    | error e => rw [hz] at h; cases h
    | ok bb =>
      rw [hz] at h
      cases bb with
      | true =>
        cases hrec : regScanZones md zone b s zs with
        | error e => rw [hrec] at h; cases h
        | ok r' =>
          rw [hrec] at h
          simp only [Except.ok.injEq] at h
          subst h
          rw [if_neg hne]
          exact ih r' hzm' hrec
      | false => exact ih r hzm' h

theorem regScanZones_ok_mem (md : ModelData) (zone b s : String) :
    ∀ zs r, zs.Nodup → zone ∈ zs → regScanZones md zone b s zs = Except.ok r →
      r = if isBusInZoneTrue md b zone then [s] else [] := by
  intro zs
  induction zs with
  | nil => intro r _ hzm; exact absurd hzm (List.not_mem_nil zone)
  | cons z zs ih =>
    intro r hnd hzm h
    simp only [regScanZones] at h
    by_cases hzz : z = zone
    · subst hzz
      have hznotin : z ∉ zs := (List.nodup_cons.mp hnd).1
      cases hz : isBusInZone md b z with
      | error e => rw [hz] at h; cases h
      | ok bb =>
        rw [hz] at h
        cases bb with
        | true =>
          cases hrec : regScanZones md z b s zs with
          | error e => rw [hrec] at h; cases h
          | ok r' =>
            rw [hrec] at h
            simp only [Except.ok.injEq] at h
            subst h
            rw [regScanZones_not_mem md z b s zs r' hznotin hrec]
            simp [isBusInZoneTrue, hz]
        | false =>
          rw [regScanZones_not_mem md z b s zs r hznotin h]
          simp [isBusInZoneTrue, hz]
    · have hzm' : zone ∈ zs := by
        cases List.mem_cons.mp hzm with
        | inl hx => exact absurd hx.symm hzz
        | inr hx => exact hx
      have hnd' : zs.Nodup := (List.nodup_cons.mp hnd).2
      cases hz : isBusInZone md b z with
      | error e => rw [hz] at h; cases h
      | ok bb =>
        rw [hz] at h
        cases bb with
        | true =>
          cases hrec : regScanZones md zone b s zs with
          | error e => rw [hrec] at h; cases h
          | ok r' =>
            rw [hrec] at h
            simp only [Except.ok.injEq] at h
            subst h
            rw [if_neg hzz]
            exact ih r' hnd' hzm' hrec
        | false => exact ih r hnd' hzm' h

theorem regScanBuses_ok (md : ModelData) (m : UCModel) (zone s : String)
    (hnd : m.RegulationZones.Nodup) (hzm : zone ∈ m.RegulationZones) :
    ∀ bs r, regScanBuses md m zone s bs = Except.ok r →
      r = (bs.filter
            (fun b => decide (s ∈ m.StorageAtBus b) && isBusInZoneTrue md b zone)).map
          (fun _ => s) := by
  intro bs
  induction bs with
  | nil =>
    intro r h
    simp only [regScanBuses, Except.ok.injEq] at h
    simp [← h]
  | cons b bs ih =>
    intro r h
    simp only [regScanBuses] at h
    by_cases hmem : s ∈ m.StorageAtBus b
    · rw [if_pos hmem] at h
      cases h1 : regScanZones md zone b s m.RegulationZones with
      | error e => rw [h1] at h; cases h
      | ok l =>
        rw [h1] at h
        cases h2 : regScanBuses md m zone s bs with
        | error e => rw [h2] at h; cases h
        | ok r' =>
          rw [h2] at h
          simp only [Except.ok.injEq] at h
          subst h
          have hl := regScanZones_ok_mem md zone b s m.RegulationZones l hnd hzm h1
          rw [ih r' h2, hl, List.filter_cons]
          by_cases hz : isBusInZoneTrue md b zone
          · simp [hmem, hz]
          · simp [hmem, hz]
    · rw [if_neg hmem] at h
      rw [ih r h]
      simp [List.filter_cons, hmem]

theorem regScanStorage_ok (md : ModelData) (m : UCModel) (zone : String)
    (hb : ∀ s, busCount m s ≤ 1) (hnd : m.RegulationZones.Nodup)
    (hzm : zone ∈ m.RegulationZones) :
    ∀ ss r, regScanStorage md m zone ss = Except.ok r →
      r = ss.filter (fun s => storageLocatedInZone md m zone s) := by
  intro ss
  induction ss with
  | nil =>
    intro r h
    simp only [regScanStorage, Except.ok.injEq] at h
    simp [← h]
  | cons s ss ih =>
    intro r h
    simp only [regScanStorage] at h
    cases h1 : regScanBuses md m zone s m.Buses with
    | error e => rw [h1] at h; cases h
    | ok l =>
      rw [h1] at h
      cases h2 : regScanStorage md m zone ss with
      | error e => rw [h2] at h; cases h
      | ok r' =>
        rw [h2] at h
        simp only [Except.ok.injEq] at h
        subst h
        have hl : l = if storageLocatedInZone md m zone s then [s] else [] := by
          rw [regScanBuses_ok md m zone s hnd hzm m.Buses l h1]
          exact located_filter_buses md m zone s (hb s)
        rw [ih r' h2, hl, List.filter_cons]
        by_cases hloc : storageLocatedInZone md m zone s
        · simp [hloc]
        · simp [hloc]

theorem get_storage_in_zone_ok (md : ModelData) (m : UCModel) (zone : String)
    (zoneSet : List String) (hb : ∀ s, busCount m s ≤ 1) (l : List String)
    (h : _get_storage_in_zone md m zone zoneSet = Except.ok l) :
    l = m.Storage.filter (fun s => storageLocatedInZone md m zone s) :=
  scanStorage_ok md m zone hb m.Storage l h

theorem get_storage_in_reg_zone_ok (md : ModelData) (m : UCModel) (zone : String)
    (hb : ∀ s, busCount m s ≤ 1) (hnd : m.RegulationZones.Nodup)
    (hzm : zone ∈ m.RegulationZones) (l : List String)
    (h : _get_storage_in_reg_zone md m zone = Except.ok l) :
    l = m.Storage.filter (fun s => storageLocatedInZone md m zone s) :=
  regScanStorage_ok md m zone hb hnd hzm m.Storage l h

theorem isBusInZone_ok (md : ModelData) (b zone : String)
    (h : (md.zone.lookup zone).isSome = true) :
    ∃ bb, isBusInZone md b zone = Except.ok bb := by
  cases hz : md.zone.lookup zone with
  | none => rw [hz] at h; simp at h
  | some zd =>
    cases hb2 : zd.buses with
    | none => exact ⟨false, by simp [isBusInZone, hz, hb2]⟩
    | some bl => exact ⟨decide (b ∈ bl), by simp [isBusInZone, hz, hb2]⟩

theorem scanBuses_ne_error (md : ModelData) (m : UCModel) (zone s : String)
    (h : (md.zone.lookup zone).isSome = true) :
    ∀ bs, ∃ r, scanBuses md m zone s bs = Except.ok r := by
  intro bs
  induction bs with
  | nil => exact ⟨[], rfl⟩
  | cons b bs ih =>
    obtain ⟨r, hr⟩ := ih
    by_cases hmem : s ∈ m.StorageAtBus b
    · obtain ⟨bb, hbb⟩ := isBusInZone_ok md b zone h
      cases bb with
      | true => exact ⟨s :: r, by simp only [scanBuses]; rw [if_pos hmem, hbb, hr]⟩
      | false => exact ⟨r, by simp only [scanBuses]; rw [if_pos hmem, hbb]; exact hr⟩
    · exact ⟨r, by simp only [scanBuses]; rw [if_neg hmem]; exact hr⟩

theorem scanStorage_ne_error (md : ModelData) (m : UCModel) (zone : String)
    (h : (md.zone.lookup zone).isSome = true) :
    ∀ ss, ∃ r, scanStorage md m zone ss = Except.ok r := by
  intro ss
  induction ss with
  | nil => exact ⟨[], rfl⟩
  | cons s ss ih =>
    obtain ⟨r, hr⟩ := ih
    obtain ⟨l, hl⟩ := scanBuses_ne_error md m zone s h m.Buses
    exact ⟨l ++ r, by simp only [scanStorage]; rw [hl, hr]⟩

theorem scanStorage_mem (md : ModelData) (m : UCModel) (zone : String) :
    ∀ ss r, scanStorage md m zone ss = Except.ok r →
      ∀ x ∈ r, x ∈ ss ∧ storageLocatedInZone md m zone x = true := by
  intro ss
  induction ss with
  | nil =>
    intro r h x hx
    simp only [scanStorage, Except.ok.injEq] at h
    rw [← h] at hx
    exact absurd hx (List.not_mem_nil x)
  | cons s ss ih =>
    intro r h x hx
    simp only [scanStorage] at h
    cases h1 : scanBuses md m zone s m.Buses with
    | error e => rw [h1] at h; cases h
    | ok l =>
      rw [h1] at h
      cases h2 : scanStorage md m zone ss with
      | error e => rw [h2] at h; cases h
      | ok r' =>
        rw [h2] at h
        simp only [Except.ok.injEq] at h
        subst h
        cases List.mem_append.mp hx with
        | inl hxl =>
          have hlq := scanBuses_ok md m zone s m.Buses l h1
          rw [hlq] at hxl
          obtain ⟨b, hbmem, hxb⟩ := List.mem_map.mp hxl
          have hbm := (List.mem_filter.mp hbmem).2
          constructor
          · rw [← hxb]; exact List.mem_cons_self s ss
          · rw [← hxb, storageLocatedInZone, List.any_eq_true]
            exact ⟨b, (List.mem_filter.mp hbmem).1, hbm⟩
        | inr hxr =>
          obtain ⟨hx1, hx2⟩ := ih r' h2 x hxr
          exact ⟨List.mem_cons_of_mem s hx1, hx2⟩

theorem spliceConstrs_ok (lookup : String → Except Unit (List String))
    (var : Point → String → Nat → ℚ) :
    ∀ ps qs, spliceConstrs lookup var ps = Except.ok qs →
      List.Forall₂
        (fun (p : (String × Nat) × BaseConstr) (q : (String × Nat) × ExtConstr) =>
          q.1 = p.1 ∧ q.2.sense = Sense.ge ∧ q.2.bound = p.2.bound ∧
          ∃ l, lookup p.1.1 = Except.ok l ∧
            ∀ pt, q.2.lhs pt =
              p.2.lhs pt.base + (l.map (fun s => var pt s p.1.2)).sum) ps qs := by
  intro ps
  induction ps with
  | nil =>
    intro qs h
    simp only [spliceConstrs, Except.ok.injEq] at h
    rw [← h]
    exact List.Forall₂.nil
  | cons p ps ih =>
    intro qs h
    simp only [spliceConstrs] at h
    cases h1 : splicedConstr lookup var p.1 p.2 with
    | error e => rw [h1] at h; cases h
    | ok c =>
      rw [h1] at h
      cases h2 : spliceConstrs lookup var ps with
      | error e => rw [h2] at h; cases h
      | ok rest' =>
        rw [h2] at h
        simp only [Except.ok.injEq] at h
        subst h
        refine List.Forall₂.cons ?_ (ih rest' h2)
        simp only [splicedConstr] at h1
        cases hl : lookup p.1.1 with
        | error e => rw [hl] at h1; cases h1
        | ok l =>
          rw [hl] at h1
          simp only [Except.ok.injEq] at h1
          subst h1
          exact ⟨rfl, rfl, rfl, l, rfl, fun pt => rfl⟩

theorem list_sum_map_add {α : Type} (l : List α) (f g : α → ℚ) :
    (l.map (fun a => f a + g a)).sum = (l.map f).sum + (l.map g).sum := by
  induction l with
  | nil => simp
  | cons a l ih => simp [ih]; ring

theorem list_sum_comm {α β : Type} (la : List α) (lb : List β) (f : α → β → ℚ) :
    (la.map (fun a => (lb.map (fun b => f a b)).sum)).sum =
      (lb.map (fun b => (la.map (fun a => f a b)).sum)).sum := by
  induction la with
  | nil => simp
  | cons a la ih =>
    simp only [List.map_cons, List.sum_cons, ih]
    rw [← list_sum_map_add]

theorem extend_ok (md : ModelData) (m : UCModel) (em : ExtendedModel)
    (h : extend md m = Except.ok em) :
    em.m = m ∧ spliceRegUp md m = Except.ok em.regUpConstrs ∧
      spliceSpin md m = Except.ok em.spinConstrs ∧
      spliceFlexUp md m = Except.ok em.flexUpConstrs := by
  simp only [extend] at h
  cases h1 : spliceRegUp md m with
  | error e => rw [h1] at h; cases h
  | ok r =>
    rw [h1] at h
    cases h2 : spliceSpin md m with
    | error e => rw [h2] at h; cases h
    | ok sp =>
      rw [h2] at h
      cases h3 : spliceFlexUp md m with
      | error e => rw [h3] at h; cases h
      | ok f =>
        rw [h3] at h
        simp only [Except.ok.injEq] at h
        subst h
        exact ⟨rfl, rfl, rfl, rfl⟩

theorem ExtConstr.sat_congr (c : ExtConstr) (pt pt' : Point)
    (h : c.lhs pt' = c.lhs pt) : c.sat pt → c.sat pt' := by
  cases hs : c.sense <;> simp [ExtConstr.sat, hs, h]

theorem spliceConstrs_lhs_setFlexDn (lookup : String → Except Unit (List String))
    (var : Point → String → Nat → ℚ)
    (hvar : ∀ pt f s t, var (Point.setFlexDn pt f) s t = var pt s t) :
    ∀ ps qs, spliceConstrs lookup var ps = Except.ok qs →
      ∀ q ∈ qs, ∀ pt f, q.2.lhs (Point.setFlexDn pt f) = q.2.lhs pt := by
  intro ps
  induction ps with
  | nil =>
    intro qs h q hq
    simp only [spliceConstrs, Except.ok.injEq] at h
    rw [← h] at hq
    exact absurd hq (List.not_mem_nil q)
  | cons p ps ih =>
    intro qs h q hq
    simp only [spliceConstrs] at h
    cases h1 : splicedConstr lookup var p.1 p.2 with
    | error e => rw [h1] at h; cases h
    | ok c =>
      rw [h1] at h
      cases h2 : spliceConstrs lookup var ps with
      | error e => rw [h2] at h; cases h
      | ok rest' =>
        rw [h2] at h
        simp only [Except.ok.injEq] at h
        subst h
        cases List.mem_cons.mp hq with
        | inl hq1 =>
          subst hq1
          simp only [splicedConstr] at h1
          cases hl : lookup p.1.1 with
          | error e => rw [hl] at h1; cases h1
          | ok l =>
            rw [hl] at h1
            simp only [Except.ok.injEq] at h1
            subst h1
            intro pt f
            simp only [hvar]
            rfl
        | inr hq2 => exact ih rest' h2 q hq2

theorem forall₂_imp_mem {α β : Type} {R R' : α → β → Prop} :
    ∀ ps qs, List.Forall₂ R ps qs → (∀ p ∈ ps, ∀ q, R p q → R' p q) →
      List.Forall₂ R' ps qs := by
  intro ps qs h
  induction h with
  | nil => intro; exact List.Forall₂.nil
  | cons hr hrest ih =>
    intro himp
    exact List.Forall₂.cons (himp _ (List.mem_cons_self _ _) _ hr)
      (ih (fun p hp q hq => himp p (List.mem_cons_of_mem _ hp) q hq))

theorem timePeriodsLast_mem (m : UCModel) (h : m.TimePeriods ≠ []) :
    timePeriodsLast m ∈ m.TimePeriods := by
  rw [timePeriodsLast]
  cases hl : m.TimePeriods with
  | nil => exact absurd hl h
  | cons a l => rw [List.getLastD_cons]; exact List.getLastD_mem_cons l a

theorem busCount_le (m : UCModel) (s : String) : busCount m s ≤ m.Buses.length :=
  List.length_filter_le _ _

theorem wEM_ok : extend wMD wM = Except.ok wEM := rfl

theorem list_sum_map_zero {α : Type} (l : List α) :
    (l.map (fun _ => (0 : ℚ))).sum = 0 := by
  induction l with
  | nil => rfl
  | cons a l ih => simp [ih]

theorem wEM_regUpConstrs_eq : wEM.regUpConstrs =
    [(("z1", 1),
      ⟨fun pt => pt.base.other 1 + (pt.StorageRegulationReserveUp "s1" 1 + 0),
        Sense.ge, 5⟩)] := rfl

theorem wEM_spinConstrs_eq : wEM.spinConstrs =
    [(("z1", 1),
      ⟨fun pt => pt.base.other 2 + (pt.StorageSpinningReserve "s1" 1 + 0),
        Sense.ge, 6⟩)] := rfl

theorem wEM_flexUpConstrs_eq : wEM.flexUpConstrs =
    [(("z1", 1),
      ⟨fun pt => pt.base.other 3 + (pt.StorageFlexUpProvided "s1" 1 + 0),
        Sense.ge, 7⟩)] := rfl

theorem wPt_variant_feasible (g : String → Nat → ℚ) (hg : ∀ s t, 0 ≤ g s t) :
    feasible wEM (Point.setFlexDn wPt g) := by
  refine ⟨trivial, ?_, ?_, ?_, ?_, ?_⟩
  · intro s _ t _
    exact ⟨le_refl 0, le_refl 0, Or.inl rfl, le_refl 0, le_refl 0, hg s t⟩
  · intro s _ t _
    refine ⟨?_, ?_, ?_, ?_⟩
    · show (0 : ℚ) ≤ StorageRegulationUpCapability wEM.m s t * 0
      simp
    · show (0 : ℚ) ≤ StorageRegulationDnCapability wEM.m s t * 0
      simp
    · show (0 : ℚ) ≤ min ((10 : ℚ) - 0) 10 * (1 - 0)
      norm_num
    · unfold storage_flex_up_limit_rule
      split
      · rfl
      · show (0 : ℚ) ≤ min ((10 : ℚ) - 0 + 0) (20 * (10 / 60))
        norm_num
  · intro p hp
    rw [wEM_regUpConstrs_eq] at hp
    rw [List.mem_singleton] at hp
    subst hp
    show (10 : ℚ) + (0 + 0) ≥ 5
    norm_num
  · intro p hp
    rw [wEM_spinConstrs_eq] at hp
    rw [List.mem_singleton] at hp
    subst hp
    show (10 : ℚ) + (0 + 0) ≥ 6
    norm_num
  · intro p hp
    rw [wEM_flexUpConstrs_eq] at hp
    rw [List.mem_singleton] at hp
    subst hp
    show (10 : ℚ) + (0 + 0) ≥ 7
    norm_num

theorem wPt_feasible : feasible wEM wPt :=
  wPt_variant_feasible (fun _ _ => 0) (fun _ _ => le_refl 0)

theorem wPtBig_feasible : feasible wEM wPtBig :=
  wPt_variant_feasible (fun _ _ => 1000) (fun _ _ => by norm_num)

theorem wPt3_feasible : feasible wEM wPt3 :=
  wPt_variant_feasible (fun _ _ => 5) (fun _ _ => by norm_num)

/-- C1: for every pre-existing zonal requirement constraint (regulation-up,
spinning-reserve, or flex-up) indexed by (zone, time period), the extension
replaces it with a constraint whose left-hand side equals the original
aggregate expression plus the sum of the corresponding storage reserve
variables over every storage unit located at a bus belonging to that zone,
while the right-hand requirement bound and the inequality sense of the
original constraint (which is ≥) are preserved unchanged.  Hypotheses: every
storage unit sits at at most one bus, the regulation-zone set has no
duplicates and contains the regulation constraint indices, and the extension
completed without a zone-lookup error. -/
theorem C1_zonal_requirement_splice (md : ModelData) (m : UCModel)
    (em : ExtendedModel)
    (hb : ∀ s, busCount m s ≤ 1)
    (hnd : m.RegulationZones.Nodup)
    (hzm : ∀ p ∈ m.EnforceZonalRegulationUpRequirement, p.1.1 ∈ m.RegulationZones)
    (hext : extend md m = Except.ok em) :
    List.Forall₂ (spliceSpec md m (fun pt s t => pt.StorageRegulationReserveUp s t))
      m.EnforceZonalRegulationUpRequirement em.regUpConstrs ∧
    List.Forall₂ (spliceSpec md m (fun pt s t => pt.StorageSpinningReserve s t))
      m.EnforceZonalSpinningReserveRequirement em.spinConstrs ∧
    List.Forall₂ (spliceSpec md m (fun pt s t => pt.StorageFlexUpProvided s t))
      m.ZonalFlexUpRequirementConstr em.flexUpConstrs := by
  obtain ⟨-, hreg, hspin, hflex⟩ := extend_ok md m em hext
  refine ⟨?_, ?_, ?_⟩
  · have hfa := spliceConstrs_ok (_get_storage_in_reg_zone md m)
      (fun pt s t => pt.StorageRegulationReserveUp s t)
      m.EnforceZonalRegulationUpRequirement em.regUpConstrs hreg
    refine forall₂_imp_mem _ _ hfa ?_
    intro p hp q hq
    obtain ⟨h1, h2, h3, l, hl, hlhs⟩ := hq
    have hleq := get_storage_in_reg_zone_ok md m p.1.1 hb hnd (hzm p hp) l hl
    refine ⟨h1, fun hps => h2.trans hps.symm, h3, ?_⟩
    intro pt
    rw [hlhs pt, hleq]
  · have hfa := spliceConstrs_ok (_get_storage_in_spin_zone md m)
      (fun pt s t => pt.StorageSpinningReserve s t)
      m.EnforceZonalSpinningReserveRequirement em.spinConstrs hspin
    refine forall₂_imp_mem _ _ hfa ?_
    intro p hp q hq
    obtain ⟨h1, h2, h3, l, hl, hlhs⟩ := hq
    have hleq := get_storage_in_zone_ok md m p.1.1 m.SpinningReserveZones hb l hl
    refine ⟨h1, fun hps => h2.trans hps.symm, h3, ?_⟩
    intro pt
    rw [hlhs pt, hleq]
  · have hfa := spliceConstrs_ok (_get_storage_in_flex_zone md m)
      (fun pt s t => pt.StorageFlexUpProvided s t)
      m.ZonalFlexUpRequirementConstr em.flexUpConstrs hflex
    refine forall₂_imp_mem _ _ hfa ?_
    intro p hp q hq
    obtain ⟨h1, h2, h3, l, hl, hlhs⟩ := hq
    have hleq := get_storage_in_zone_ok md m p.1.1 m.FlexRampZones hb l hl
    refine ⟨h1, fun hps => h2.trans hps.symm, h3, ?_⟩
    intro pt
    rw [hlhs pt, hleq]

/-- C1 witness: the splice property evaluated on the concrete one-zone,
one-storage-unit model `wM`. -/
theorem C1_zonal_requirement_splice_witness :
    List.Forall₂ (spliceSpec wMD wM (fun pt s t => pt.StorageRegulationReserveUp s t))
      wM.EnforceZonalRegulationUpRequirement wEM.regUpConstrs ∧
    List.Forall₂ (spliceSpec wMD wM (fun pt s t => pt.StorageSpinningReserve s t))
      wM.EnforceZonalSpinningReserveRequirement wEM.spinConstrs ∧
    List.Forall₂ (spliceSpec wMD wM (fun pt s t => pt.StorageFlexUpProvided s t))
      wM.ZonalFlexUpRequirementConstr wEM.flexUpConstrs :=
  C1_zonal_requirement_splice wMD wM wEM
    (fun s => busCount_le wM s)
    (by decide)
    (by
      intro p hp
      rcases List.mem_singleton.mp hp with rfl
      decide)
    wEM_ok

/-- C2 counterexample: the claim asserts that the flex-down provision, like
the other reserve variables, is bounded above by its computed capability in
every feasible point.  But the extension constrains `StorageFlexDnProvided`
by nothing except non-negativity: the point `wPtBig`, with flex-down
provision 1000, is feasible for the extended witness model even though 1000
exceeds the flex-ramp window capability, the regulation-down capability, and
the unit's maximum power output (10). -/
theorem C2_counterexample :
    extend wMD wM = Except.ok wEM ∧
    feasible wEM wPtBig ∧
    "s1" ∈ wEM.m.Storage ∧ (1 : Nat) ∈ wEM.m.TimePeriods ∧
    ¬ (wPtBig.StorageFlexDnProvided "s1" 1 ≤
        min (wEM.m.MaximumPowerOutputStorage "s1"
              - wPtBig.base.PowerOutputStorage "s1" 1
              + wPtBig.base.PowerInputStorage "s1" 1)
          (wEM.m.FlexRampMinutes * (wEM.m.NominalRampUpLimitStorageOutput "s1" / 60))) ∧
    ¬ (wPtBig.StorageFlexDnProvided "s1" 1 ≤ StorageRegulationDnCapability wEM.m "s1" 1) ∧
    ¬ (wPtBig.StorageFlexDnProvided "s1" 1 ≤ wEM.m.MaximumPowerOutputStorage "s1") := by
  refine ⟨wEM_ok, wPtBig_feasible, by decide, by decide, ?_, ?_, ?_⟩
  · intro hle
    have h1 : min ((10 : ℚ) - 0 + 0) (20 * (10 / 60)) ≤ (10 : ℚ) - 0 + 0 :=
      min_le_left _ _
    have h2 : (1000 : ℚ) ≤ min ((10 : ℚ) - 0 + 0) (20 * (10 / 60)) := hle
    linarith
  · intro hle
    have h1 : min ((10 : ℚ)) ((10 / 60) * 5) ≤ (10 : ℚ) := min_le_left _ _
    have h2 : (1000 : ℚ) ≤ min ((10 : ℚ)) ((10 / 60) * 5) := hle
    linarith
  · intro hle
    have h2 : (1000 : ℚ) ≤ (10 : ℚ) := hle
    linarith

/-- C2, amended: in every feasible point of the extended model, the
two-sided bound `0 ≤ reserve ≤ capability` holds for regulation up-reserve,
regulation down-reserve (given nonnegative physical data, which makes the
capability nonnegative), spinning reserve and flex-up provision (with the
terminal-period flex bound being equality with zero) — but flex-down
provision is only bounded below by zero; no upper bound on it exists in the
model. -/
theorem C2_reserve_bounds (em : ExtendedModel) (pt : Point)
    (hfeas : feasible em pt)
    (hmax : ∀ s, 0 ≤ em.m.MaximumPowerOutputStorage s)
    (hru : ∀ s, 0 ≤ em.m.NominalRampUpLimitStorageOutput s)
    (hrd : ∀ s, 0 ≤ em.m.NominalRampDownLimitStorageOutput s)
    (hrm : 0 ≤ em.m.RegulationMinutes)
    (s : String) (t : Nat) (hs : s ∈ em.m.Storage) (ht : t ∈ em.m.TimePeriods) :
    (0 ≤ pt.StorageRegulationReserveUp s t ∧
      pt.StorageRegulationReserveUp s t ≤ StorageRegulationUpCapability em.m s t) ∧
    (0 ≤ pt.StorageRegulationReserveDn s t ∧
      pt.StorageRegulationReserveDn s t ≤ StorageRegulationDnCapability em.m s t) ∧
    (0 ≤ pt.StorageSpinningReserve s t ∧
      pt.StorageSpinningReserve s t ≤
        min (em.m.MaximumPowerOutputStorage s - pt.base.PowerOutputStorage s t)
          (em.m.ScaledNominalRampUpLimitStorageOutput s)
          * (1 - pt.base.InputStorage s t)) ∧
    (0 ≤ pt.StorageFlexUpProvided s t ∧
      (t = timePeriodsLast em.m → pt.StorageFlexUpProvided s t = 0) ∧
      (t ≠ timePeriodsLast em.m → pt.StorageFlexUpProvided s t ≤
        min (em.m.MaximumPowerOutputStorage s - pt.base.PowerOutputStorage s t
              + pt.base.PowerInputStorage s t)
          (em.m.FlexRampMinutes * (em.m.NominalRampUpLimitStorageOutput s / 60)))) ∧
    0 ≤ pt.StorageFlexDnProvided s t := by
  obtain ⟨-, hdom, hrules, -, -, -⟩ := hfeas
  obtain ⟨hup0, hdn0, hbin, hsp0, hfu0, hfd0⟩ := hdom s hs t ht
  obtain ⟨hupr, hdnr, hspr, hfur⟩ := hrules s hs t ht
  have hcapu : 0 ≤ StorageRegulationUpCapability em.m s t :=
    le_min (hmax s) (mul_nonneg (div_nonneg (hru s) (by norm_num)) hrm)
  have hcapd : 0 ≤ StorageRegulationDnCapability em.m s t :=
    le_min (hmax s) (mul_nonneg (div_nonneg (hrd s) (by norm_num)) hrm)
  have hupr' : pt.StorageRegulationReserveUp s t ≤
      StorageRegulationUpCapability em.m s t * pt.StorageRegulationOn s t := hupr
  have hdnr' : pt.StorageRegulationReserveDn s t ≤
      StorageRegulationDnCapability em.m s t * pt.StorageRegulationOn s t := hdnr
  have hspr' : pt.StorageSpinningReserve s t ≤
      min (em.m.MaximumPowerOutputStorage s - pt.base.PowerOutputStorage s t)
        (em.m.ScaledNominalRampUpLimitStorageOutput s)
        * (1 - pt.base.InputStorage s t) := hspr
  have hfur' : (if t = timePeriodsLast em.m then pt.StorageFlexUpProvided s t = 0
      else pt.StorageFlexUpProvided s t ≤
        min (em.m.MaximumPowerOutputStorage s - pt.base.PowerOutputStorage s t
              + pt.base.PowerInputStorage s t)
          (em.m.FlexRampMinutes * (em.m.NominalRampUpLimitStorageOutput s / 60))) := hfur
  have hupb : pt.StorageRegulationReserveUp s t ≤
      StorageRegulationUpCapability em.m s t := by
    cases hbin with
    | inl h0 => rw [h0, mul_zero] at hupr'; exact hupr'.trans hcapu
    | inr h1 => rw [h1, mul_one] at hupr'; exact hupr'
  have hdnb : pt.StorageRegulationReserveDn s t ≤
      StorageRegulationDnCapability em.m s t := by
    cases hbin with
    | inl h0 => rw [h0, mul_zero] at hdnr'; exact hdnr'.trans hcapd
    | inr h1 => rw [h1, mul_one] at hdnr'; exact hdnr'
  refine ⟨⟨hup0, hupb⟩, ⟨hdn0, hdnb⟩, ⟨hsp0, hspr'⟩, ⟨hfu0, ?_, ?_⟩, hfd0⟩
  · intro hteq
    rw [if_pos hteq] at hfur'
    exact hfur'
  · intro htne
    rw [if_neg htne] at hfur'
    exact hfur'

/-- C2 witness: the amended bounds evaluated at the concrete feasible point
`wPt` of the extended witness model, unit `s1`, period 1. -/
theorem C2_reserve_bounds_witness :
    (0 ≤ wPt.StorageRegulationReserveUp "s1" 1 ∧
      wPt.StorageRegulationReserveUp "s1" 1 ≤ StorageRegulationUpCapability wEM.m "s1" 1) ∧
    (0 ≤ wPt.StorageRegulationReserveDn "s1" 1 ∧
      wPt.StorageRegulationReserveDn "s1" 1 ≤ StorageRegulationDnCapability wEM.m "s1" 1) ∧
    (0 ≤ wPt.StorageSpinningReserve "s1" 1 ∧
      wPt.StorageSpinningReserve "s1" 1 ≤
        min (wEM.m.MaximumPowerOutputStorage "s1" - wPt.base.PowerOutputStorage "s1" 1)
          (wEM.m.ScaledNominalRampUpLimitStorageOutput "s1")
          * (1 - wPt.base.InputStorage "s1" 1)) ∧
    (0 ≤ wPt.StorageFlexUpProvided "s1" 1 ∧
      ((1 : Nat) = timePeriodsLast wEM.m → wPt.StorageFlexUpProvided "s1" 1 = 0) ∧
      ((1 : Nat) ≠ timePeriodsLast wEM.m → wPt.StorageFlexUpProvided "s1" 1 ≤
        min (wEM.m.MaximumPowerOutputStorage "s1" - wPt.base.PowerOutputStorage "s1" 1
              + wPt.base.PowerInputStorage "s1" 1)
          (wEM.m.FlexRampMinutes * (wEM.m.NominalRampUpLimitStorageOutput "s1" / 60)))) ∧
    0 ≤ wPt.StorageFlexDnProvided "s1" 1 :=
  C2_reserve_bounds wEM wPt wPt_feasible
    (fun _ => show (0 : ℚ) ≤ 10 by norm_num)
    (fun _ => show (0 : ℚ) ≤ 10 by norm_num)
    (fun _ => show (0 : ℚ) ≤ 10 by norm_num)
    (show (0 : ℚ) ≤ 5 by norm_num) "s1" 1 (by decide) (by decide)

/-- C3 counterexample: the claim asserts that both the flex-up and the
flex-down provision variables are forced to zero at the terminal period.
`storage_flex_up_limit_rule` forces only the flex-up variable to zero; the
point `wPt3`, with flex-down provision 5 at the terminal period, is feasible
for the extended witness model. -/
theorem C3_counterexample :
    extend wMD wM = Except.ok wEM ∧
    feasible wEM wPt3 ∧
    "s1" ∈ wEM.m.Storage ∧
    timePeriodsLast wEM.m ∈ wEM.m.TimePeriods ∧
    wPt3.StorageFlexDnProvided "s1" (timePeriodsLast wEM.m) ≠ 0 :=
  ⟨wEM_ok, wPt3_feasible, by decide, by decide,
    by show (5 : ℚ) ≠ 0; norm_num⟩

/-- C3, amended: at the terminal (last) time period of the horizon the
flex-up provision variable is forced to be exactly zero in every feasible
point of the extended model; the flex-down provision variable is not
constrained at the terminal period (beyond non-negativity). -/
theorem C3_flex_up_terminal_zero (em : ExtendedModel) (pt : Point)
    (hfeas : feasible em pt) (s : String) (hs : s ∈ em.m.Storage)
    (hne : em.m.TimePeriods ≠ []) :
    pt.StorageFlexUpProvided s (timePeriodsLast em.m) = 0 := by
  obtain ⟨-, -, hrules, -, -, -⟩ := hfeas
  obtain ⟨-, -, -, hfur⟩ :=
    hrules s hs (timePeriodsLast em.m) (timePeriodsLast_mem em.m hne)
  have hfur' : (if timePeriodsLast em.m = timePeriodsLast em.m then
      pt.StorageFlexUpProvided s (timePeriodsLast em.m) = 0
    else pt.StorageFlexUpProvided s (timePeriodsLast em.m) ≤
      min (em.m.MaximumPowerOutputStorage s
            - pt.base.PowerOutputStorage s (timePeriodsLast em.m)
            + pt.base.PowerInputStorage s (timePeriodsLast em.m))
        (em.m.FlexRampMinutes *
          (em.m.NominalRampUpLimitStorageOutput s / 60))) := hfur
  rw [if_pos rfl] at hfur'
  exact hfur'

/-- C3 witness: the amended terminal-period property evaluated at the
feasible point `wPt` of the extended witness model. -/
theorem C3_flex_up_terminal_zero_witness :
    wPt.StorageFlexUpProvided "s1" (timePeriodsLast wEM.m) = 0 :=
  C3_flex_up_terminal_zero wEM wPt wPt_feasible "s1" (by decide) (by decide)

/-- C4: in every feasible point, spinning reserve is at most
`min(discharge headroom, ramp-up capacity) * (1 - charging indicator)`; in
particular a unit whose charging indicator equals 1 provides zero spinning
reserve. -/
theorem C4_spin_limit (em : ExtendedModel) (pt : Point)
    (hfeas : feasible em pt)
    (s : String) (t : Nat) (hs : s ∈ em.m.Storage) (ht : t ∈ em.m.TimePeriods) :
    pt.StorageSpinningReserve s t ≤
      min (em.m.MaximumPowerOutputStorage s - pt.base.PowerOutputStorage s t)
        (em.m.ScaledNominalRampUpLimitStorageOutput s)
        * (1 - pt.base.InputStorage s t) ∧
    (pt.base.InputStorage s t = 1 → pt.StorageSpinningReserve s t = 0) := by
  obtain ⟨-, hdom, hrules, -, -, -⟩ := hfeas
  obtain ⟨-, -, -, hsp0, -, -⟩ := hdom s hs t ht
  obtain ⟨-, -, hspr, -⟩ := hrules s hs t ht
  have hspr' : pt.StorageSpinningReserve s t ≤
      min (em.m.MaximumPowerOutputStorage s - pt.base.PowerOutputStorage s t)
        (em.m.ScaledNominalRampUpLimitStorageOutput s)
        * (1 - pt.base.InputStorage s t) := hspr
  refine ⟨hspr', ?_⟩
  intro hchg
  rw [hchg] at hspr'
  have hzero : (1 : ℚ) - 1 = 0 := by norm_num
  rw [hzero, mul_zero] at hspr'
  exact le_antisymm hspr' hsp0

/-- C4 witness: the spinning-reserve limit evaluated at the feasible point
`wPt` of the extended witness model (unit `s1`, period 1). -/
theorem C4_spin_limit_witness :
    wPt.StorageSpinningReserve "s1" 1 ≤
      min (wEM.m.MaximumPowerOutputStorage "s1" - wPt.base.PowerOutputStorage "s1" 1)
        (wEM.m.ScaledNominalRampUpLimitStorageOutput "s1")
        * (1 - wPt.base.InputStorage "s1" 1) ∧
    (wPt.base.InputStorage "s1" 1 = 1 → wPt.StorageSpinningReserve "s1" 1 = 0) :=
  C4_spin_limit wEM wPt wPt_feasible "s1" 1 (by decide) (by decide)

/-- C5: for every storage unit and non-terminal time period, the flex-up
provision is bounded above by `min(discharge headroom + charge reduction,
FlexRampMinutes * ramp-up output limit / 60)`; the charge-reduction term is
the current charging power `PowerInputStorage[s,t]` — the amount by which
charging can be reduced in the next period, in the words of the source
comment. -/
theorem C5_flex_up_limit (em : ExtendedModel) (pt : Point)
    (hfeas : feasible em pt)
    (s : String) (t : Nat) (hs : s ∈ em.m.Storage) (ht : t ∈ em.m.TimePeriods)
    (hterm : t ≠ timePeriodsLast em.m) :
    pt.StorageFlexUpProvided s t ≤
      min (em.m.MaximumPowerOutputStorage s - pt.base.PowerOutputStorage s t
            + pt.base.PowerInputStorage s t)
        (em.m.FlexRampMinutes * (em.m.NominalRampUpLimitStorageOutput s / 60)) := by
  obtain ⟨-, -, hrules, -, -, -⟩ := hfeas
  obtain ⟨-, -, -, hfur⟩ := hrules s hs t ht
  have hfur' : (if t = timePeriodsLast em.m then pt.StorageFlexUpProvided s t = 0
      else pt.StorageFlexUpProvided s t ≤
        min (em.m.MaximumPowerOutputStorage s - pt.base.PowerOutputStorage s t
              + pt.base.PowerInputStorage s t)
          (em.m.FlexRampMinutes *
            (em.m.NominalRampUpLimitStorageOutput s / 60))) := hfur
  rw [if_neg hterm] at hfur'
  exact hfur'

/-- C5 witness: the non-terminal flex-up bound evaluated at the feasible
point `wPt` of the extended witness model (unit `s1`, period 1, terminal
period 2). -/
theorem C5_flex_up_limit_witness :
    wPt.StorageFlexUpProvided "s1" 1 ≤
      min (wEM.m.MaximumPowerOutputStorage "s1" - wPt.base.PowerOutputStorage "s1" 1
            + wPt.base.PowerInputStorage "s1" 1)
        (wEM.m.FlexRampMinutes * (wEM.m.NominalRampUpLimitStorageOutput "s1" / 60)) :=
  C5_flex_up_limit wEM wPt wPt_feasible "s1" 1 (by decide) (by decide) (by decide)

/-- C6: the regulation up/down capability parameters equal
`min(max power output, ramp limit / 60 * RegulationMinutes)` (with the
matching ramp direction), and every feasible point satisfies the coupling
constraints `reserve ≤ capability * eligibility` for both directions with a
binary eligibility variable. -/
theorem C6_regulation_capability (em : ExtendedModel) (pt : Point)
    (hfeas : feasible em pt)
    (s : String) (t : Nat) (hs : s ∈ em.m.Storage) (ht : t ∈ em.m.TimePeriods) :
    StorageRegulationUpCapability em.m s t =
      min (em.m.MaximumPowerOutputStorage s)
        (em.m.NominalRampUpLimitStorageOutput s / 60 * em.m.RegulationMinutes) ∧
    StorageRegulationDnCapability em.m s t =
      min (em.m.MaximumPowerOutputStorage s)
        (em.m.NominalRampDownLimitStorageOutput s / 60 * em.m.RegulationMinutes) ∧
    pt.StorageRegulationReserveUp s t ≤
      StorageRegulationUpCapability em.m s t * pt.StorageRegulationOn s t ∧
    pt.StorageRegulationReserveDn s t ≤
      StorageRegulationDnCapability em.m s t * pt.StorageRegulationOn s t ∧
    isBinary (pt.StorageRegulationOn s t) := by
  obtain ⟨-, hdom, hrules, -, -, -⟩ := hfeas
  obtain ⟨-, -, hbin, -, -, -⟩ := hdom s hs t ht
  obtain ⟨hupr, hdnr, -, -⟩ := hrules s hs t ht
  exact ⟨rfl, rfl, hupr, hdnr, hbin⟩

/-- C6 witness: the capability formulas and coupling constraints evaluated
at the feasible point `wPt` of the extended witness model. -/
theorem C6_regulation_capability_witness :
    StorageRegulationUpCapability wEM.m "s1" 1 =
      min (wEM.m.MaximumPowerOutputStorage "s1")
        (wEM.m.NominalRampUpLimitStorageOutput "s1" / 60 * wEM.m.RegulationMinutes) ∧
    StorageRegulationDnCapability wEM.m "s1" 1 =
      min (wEM.m.MaximumPowerOutputStorage "s1")
        (wEM.m.NominalRampDownLimitStorageOutput "s1" / 60 * wEM.m.RegulationMinutes) ∧
    wPt.StorageRegulationReserveUp "s1" 1 ≤
      StorageRegulationUpCapability wEM.m "s1" 1 * wPt.StorageRegulationOn "s1" 1 ∧
    wPt.StorageRegulationReserveDn "s1" 1 ≤
      StorageRegulationDnCapability wEM.m "s1" 1 * wPt.StorageRegulationOn "s1" 1 ∧
    isBinary (wPt.StorageRegulationOn "s1" 1) :=
  C6_regulation_capability wEM wPt wPt_feasible "s1" 1 (by decide) (by decide)

/-- C7: the per-unit-per-period storage cost expressions equal
(regulation offer price × period length × (up-reserve + down-reserve)) and
(spinning price × period length × spinning reserve), and for every stage the
resulting stage cost equals the original stage cost plus the sum of these
storage costs over all storage units and the stage's time periods — the
pre-existing term appears additively, never replaced. -/
theorem C7_stage_cost_augmented (m : UCModel) (st : String) (pt : Point) :
    newGenerationStageCost m st pt =
      m.GenerationStageCost st pt.base +
        (m.Storage.map (fun s =>
          ((m.GenerationTimeInStage st).map (fun t =>
            m.RegulationOfferMarginalCost * m.TimePeriodLengthHours *
              (pt.StorageRegulationReserveUp s t + pt.StorageRegulationReserveDn s t) +
            m.SpinningReservePrice * m.TimePeriodLengthHours *
              pt.StorageSpinningReserve s t)).sum)).sum := by
  have h := list_sum_comm (m.GenerationTimeInStage st) m.Storage
    (fun t s => m.RegulationOfferMarginalCost * m.TimePeriodLengthHours *
        (pt.StorageRegulationReserveUp s t + pt.StorageRegulationReserveDn s t) +
      m.SpinningReservePrice * m.TimePeriodLengthHours *
        pt.StorageSpinningReserve s t)
  show m.GenerationStageCost st pt.base +
      ((m.GenerationTimeInStage st).map (fun t => (m.Storage.map (fun s =>
        m.RegulationOfferMarginalCost * m.TimePeriodLengthHours *
          (pt.StorageRegulationReserveUp s t + pt.StorageRegulationReserveDn s t) +
        m.SpinningReservePrice * m.TimePeriodLengthHours *
          pt.StorageSpinningReserve s t)).sum)).sum = _
  rw [h]

/-- C8 counterexample: the claim asserts that the zone lookup returns a
(possibly empty) list for every zone identifier it is invoked with and never
raises.  With an empty zone element collection and the single storage unit
`s1` located at bus `b1`, `_get_storage_in_zone` raises the `KeyError` of
`_is_bus_in_zone` instead of returning a list. -/
theorem C8_counterexample :
    _get_storage_in_zone wMDempty wM "z1" wM.SpinningReserveZones =
      Except.error () := rfl

/-- C8, amended: for every zone identifier that is present in the model
data's zone element collection, the lookup never raises and returns a
(possibly empty) list; every returned unit is a model storage unit located
at a bus belonging to the zone, so a storage unit found at no bus, or a bus
outside the zone's bus list, contributes nothing.  A zone identifier absent
from the zone collection makes `_is_bus_in_zone` raise a `KeyError` as soon
as some storage unit resolves to a bus. -/
theorem C8_zone_lookup_total (md : ModelData) (m : UCModel) (zone : String)
    (zoneSet : List String) (hzone : (md.zone.lookup zone).isSome = true) :
    ∃ l, _get_storage_in_zone md m zone zoneSet = Except.ok l ∧
      ∀ x ∈ l, x ∈ m.Storage ∧ storageLocatedInZone md m zone x = true := by
  obtain ⟨r, hr⟩ := scanStorage_ne_error md m zone hzone m.Storage
  exact ⟨r, hr, scanStorage_mem md m zone m.Storage r hr⟩

/-- C8 witness: the amended lookup property evaluated on the concrete model
data `wMD`, whose zone collection contains `z1`. -/
theorem C8_zone_lookup_total_witness :
    ((wMD.zone.lookup "z1").isSome = true) ∧
    ∃ l, _get_storage_in_zone wMD wM "z1" wM.SpinningReserveZones = Except.ok l ∧
      ∀ x ∈ l, x ∈ wM.Storage ∧ storageLocatedInZone wMD wM "z1" x = true :=
  ⟨rfl, C8_zone_lookup_total wMD wM "z1" wM.SpinningReserveZones rfl⟩

/-- C9: after a successful extension, the flex-down provision variable is
restricted by nothing but non-negativity and has zero objective coefficient:
replacing its values in any feasible point by arbitrary nonnegative values
keeps the point feasible and leaves every stage cost unchanged. -/
theorem C9_flex_dn_unconstrained (md : ModelData) (m : UCModel)
    (em : ExtendedModel) (pt : Point) (f : String → Nat → ℚ)
    (hext : extend md m = Except.ok em)
    (hfeas : feasible em pt)
    (hf : ∀ s t, 0 ≤ f s t) :
    feasible em (Point.setFlexDn pt f) ∧
    (∀ st, newGenerationStageCost em.m st (Point.setFlexDn pt f) =
      newGenerationStageCost em.m st pt) ∧
    (∀ s t, (Point.setFlexDn pt f).StorageFlexDnProvided s t = f s t) := by
  obtain ⟨-, hreg, hspin, hflex⟩ := extend_ok md m em hext
  obtain ⟨hbase, hdom, hrules, hregc, hspinc, hflexc⟩ := hfeas
  refine ⟨⟨hbase, ?_, hrules, ?_, ?_, ?_⟩, fun st => rfl, fun s t => rfl⟩
  · intro s hs t ht
    obtain ⟨h1, h2, h3, h4, h5, -⟩ := hdom s hs t ht
    exact ⟨h1, h2, h3, h4, h5, hf s t⟩
  · intro p hp
    exact ExtConstr.sat_congr p.2 pt (Point.setFlexDn pt f)
      (spliceConstrs_lhs_setFlexDn (_get_storage_in_reg_zone md m)
        (fun pt s t => pt.StorageRegulationReserveUp s t)
        (fun _ _ _ _ => rfl) m.EnforceZonalRegulationUpRequirement
        em.regUpConstrs hreg p hp pt f)
      (hregc p hp)
  · intro p hp
    exact ExtConstr.sat_congr p.2 pt (Point.setFlexDn pt f)
      (spliceConstrs_lhs_setFlexDn (_get_storage_in_spin_zone md m)
        (fun pt s t => pt.StorageSpinningReserve s t)
        (fun _ _ _ _ => rfl) m.EnforceZonalSpinningReserveRequirement
        em.spinConstrs hspin p hp pt f)
      (hspinc p hp)
  · intro p hp
    exact ExtConstr.sat_congr p.2 pt (Point.setFlexDn pt f)
      (spliceConstrs_lhs_setFlexDn (_get_storage_in_flex_zone md m)
        (fun pt s t => pt.StorageFlexUpProvided s t)
        (fun _ _ _ _ => rfl) m.ZonalFlexUpRequirementConstr
        em.flexUpConstrs hflex p hp pt f)
      (hflexc p hp)

/-- C9 witness: replacing the flex-down provision of the feasible point
`wPt` by the constant 7 keeps it feasible for the extended witness model and
leaves every stage cost unchanged. -/
theorem C9_flex_dn_unconstrained_witness :
    feasible wEM (Point.setFlexDn wPt (fun _ _ => 7)) ∧
    (∀ st, newGenerationStageCost wEM.m st (Point.setFlexDn wPt (fun _ _ => 7)) =
      newGenerationStageCost wEM.m st wPt) ∧
    (∀ s t, (Point.setFlexDn wPt (fun _ _ => 7)).StorageFlexDnProvided s t = 7) :=
  C9_flex_dn_unconstrained wMD wM wEM wPt (fun _ _ => 7) wEM_ok wPt_feasible
    (fun _ _ => by norm_num)

/-- C10: the generic zone lookup ignores the zone-set argument it is handed,
deciding membership solely from the shared `zone` element collection of the
model data; consequently the spinning-reserve lookup and the flex-ramp
lookup return the same contributing-unit result for every zone identifier
and every model state. -/
theorem C10_lookup_ignores_zone_set (md : ModelData) (m : UCModel) (zone : String) :
    (∀ zs1 zs2, _get_storage_in_zone md m zone zs1 = _get_storage_in_zone md m zone zs2) ∧
    _get_storage_in_spin_zone md m zone = _get_storage_in_flex_zone md m zone :=
  ⟨fun _ _ => rfl, rfl⟩

end EgretStorage
